import Mathlib

/-!
Verification of the radial-timeline visualization core (src/src/Overview.jsx and
src/src/App.jsx) against its natural-language specification.

The JavaScript source is shallowly embedded: entity records become a `MusicNode`
structure with optional fields (a `none` models an absent / non-array JS field),
JS `Set` selections become `Finset String`, numeric computation is carried out
in `ℚ` and `ℤ`.  Angles are measured in units of π radians, so the arc range
`[-π/4, π/4]` of the source is the rational interval `[-(1/4), 1/4]`; this is
exact because every angle constant in the source is a rational multiple of π,
and multiplying by π > 0 preserves every order relation proved here.
Trigonometric and square-root evaluations (used only inside the view-fit
transform, where the claims are about the *structure* of the transform) are
abstracted as function parameters `cosf sinf sqrtf : ℚ → ℚ`, and the theorems
about the transform hold for arbitrary such functions.
-/

/-- Entity record, embedding the relevant fields of the raw node objects of the
dataset as consumed by `Overview.jsx` / `App.jsx`.  `none` in an `Option` field
models a JS field that is absent or fails the source's `Array.isArray` check. -/
structure MusicNode where
  id : String
  nodeType : String := ""
  genre : Option String := none
  release_date : Option Int := none
  notable : Bool := false
  influencedBy : Option (List String) := none
  contributedTo : Option (List String) := none
  recordedArtwork : Option (List String) := none
  distributedArtwork : Option (List String) := none
deriving DecidableEq

/-- The fixed closed genre vocabulary `FLAT_GENRES = GENRE_GROUPS.flatMap(g => g.genres)`
(Overview.jsx lines 5-99; App.jsx has the identical table). -/
def FLAT_GENRES : List String :=
  ["Acoustic Folk", "Avant-Garde Folk", "Celtic Folk", "Indie Folk",
   "Oceanus Folk", "Post-Apocalyptic Folk",
   "Alternative Rock", "Blues Rock", "Desert Rock", "Indie Rock",
   "Jazz Surf Rock", "Psychedelic Rock", "Southern Gothic Rock", "Space Rock",
   "Indie Pop", "Dream Pop", "Synthpop",
   "Doom Metal", "Speed Metal", "Symphonic Metal",
   "Americana", "Darkwave", "Emo/Pop Punk", "Lo-Fi Electronica",
   "Sea Shanties", "Synthwave"]

/-- The genre vocabulary as a finite set (the "all selected" filter state). -/
def fullGenreSet : Finset String := FLAT_GENRES.toFinset

/-- JS `selectedGenres.has(n.genre)`: membership test of an optional genre in a
selection set; an absent genre is in no set. -/
def optGenreMem (g : Option String) (s : Finset String) : Bool :=
  match g with
  | some g2 => decide (g2 ∈ s)
  | none => false

/-- JS `map[n.id] = n` built by iterating `data.nodes` (Overview.jsx 310-314):
the last record with a given id wins, hence the lookup on the reversed list. -/
def nodeById (dataNodes : List MusicNode) (i : String) : Option MusicNode :=
  dataNodes.reverse.find? fun n => n.id = i

/-- First stage of `filteredNodes` (Overview.jsx line 373):
`nodes.filter(n => selectedGenres.size === 0 || selectedGenres.has(n.genre))`. -/
def genreFiltered (nodes : List MusicNode) (selectedGenres : Finset String) :
    List MusicNode :=
  nodes.filter fun n => (selectedGenres.card == 0) || optGenreMem n.genre selectedGenres

/-- Second stage of `filteredNodes` (Overview.jsx lines 374-382): when the
influence-genre selection is non-empty, keep only works citing at least one
influence source whose genre is in the selection. -/
def influenceFiltered (dataNodes : List MusicNode) (influenceGenres : Finset String)
    (filtered : List MusicNode) : List MusicNode :=
  if 0 < influenceGenres.card then
    let influenceGenreNodeIds :=
      (dataNodes.filter fun n => optGenreMem n.genre influenceGenres).map (fun n => n.id)
    filtered.filter fun n =>
      match n.influencedBy with
      | some ids => ids.any fun i => influenceGenreNodeIds.contains i
      | none => false
  else filtered

/-- Third stage of `filteredNodes` (Overview.jsx lines 384-399): the label
branch takes precedence (`if (selectedLabelId) ... else if (selectedArtistId)`),
and a selected-but-dangling label id suppresses the artist branch as well. -/
def labelArtistFiltered (dataNodes : List MusicNode)
    (selectedLabelId selectedArtistId : Option String)
    (filtered : List MusicNode) : List MusicNode :=
  match selectedLabelId with
  | some lid =>
    match nodeById dataNodes lid with
    | some lbl =>
      let recorded := lbl.recordedArtwork.getD []
      let distributed := lbl.distributedArtwork.getD []
      let labelSet := recorded ++ distributed
      filtered.filter fun n => labelSet.contains n.id
    | none => filtered
  | none =>
    match selectedArtistId with
    | some aid =>
      match nodeById dataNodes aid with
      | some artist =>
        match artist.contributedTo with
        | some contributed => filtered.filter fun n => contributed.contains n.id
        | none => filtered
      | none => filtered
    | none => filtered

/-- The FilterEngine's visible-work set `filteredNodes` (Overview.jsx 372-400):
genre filter, then influence-genre filter, then label / artist restriction. -/
def filteredNodes (nodes dataNodes : List MusicNode)
    (selectedGenres influenceGenres : Finset String)
    (selectedLabelId selectedArtistId : Option String) : List MusicNode :=
  labelArtistFiltered dataNodes selectedLabelId selectedArtistId
    (influenceFiltered dataNodes influenceGenres
      (genreFiltered nodes selectedGenres))

/-- C1: For every dataset of works whose genres lie in the fixed vocabulary,
the FilterEngine with genre-selection equal to the full vocabulary and with
genre-selection equal to the empty set produce identical visible-work sets,
both equal to the set of all works (empty means no filtering, not hide-all). -/
theorem c1_empty_and_full_genre_selection_unfiltered
    (nodes dataNodes : List MusicNode)
    (hg : ∀ n ∈ nodes, ∃ g ∈ FLAT_GENRES, n.genre = some g) :
    filteredNodes nodes dataNodes fullGenreSet ∅ none none = nodes ∧
    filteredNodes nodes dataNodes ∅ ∅ none none = nodes ∧
    filteredNodes nodes dataNodes fullGenreSet ∅ none none =
      filteredNodes nodes dataNodes ∅ ∅ none none := by
  have hfull : filteredNodes nodes dataNodes fullGenreSet ∅ none none = nodes := by
    unfold filteredNodes labelArtistFiltered influenceFiltered
    simp only [Finset.card_empty, lt_self_iff_false, if_false]
    unfold genreFiltered
    rw [List.filter_eq_self]
    intro n hn
    obtain ⟨g, hgmem, hgenre⟩ := hg n hn
    simp only [optGenreMem, hgenre, Bool.or_eq_true, decide_eq_true_eq]
    right
    simpa [fullGenreSet] using hgmem
  have hempty : filteredNodes nodes dataNodes ∅ ∅ none none = nodes := by
    unfold filteredNodes labelArtistFiltered influenceFiltered
    simp only [Finset.card_empty, lt_self_iff_false, if_false]
    unfold genreFiltered
    rw [List.filter_eq_self]
    intro n _
    simp
  exact ⟨hfull, hempty, hfull.trans hempty.symm⟩

/-- Witness for C1 at a concrete one-work dataset. -/
theorem c1_witness :
    (∀ n ∈ [({ id := "w1", genre := some "Synthpop" } : MusicNode)],
      ∃ g ∈ FLAT_GENRES, n.genre = some g) ∧
    filteredNodes [({ id := "w1", genre := some "Synthpop" } : MusicNode)] []
        fullGenreSet ∅ none none =
      [({ id := "w1", genre := some "Synthpop" } : MusicNode)] :=
  ⟨by decide, (c1_empty_and_full_genre_selection_unfiltered
      [{ id := "w1", genre := some "Synthpop" }] [] (by decide)).1⟩

/-- Interaction selection state of `Overview.jsx`: `selectedArtistId`,
`selectedLabelId`, `selectedArtworkId` (lines 368-369, 441). -/
structure SelState where
  selectedArtistId : Option String
  selectedLabelId : Option String
  selectedArtworkId : Option String
deriving DecidableEq

/-- Initial selection state: all three `useState(null)`. -/
def initSelState : SelState := ⟨none, none, none⟩

/-- Label click handler (Overview.jsx 785-790): toggles the label selection and
clears both the artist and the artwork selection. -/
def clickLabel (l : String) (s : SelState) : SelState :=
  { selectedLabelId := if s.selectedLabelId = some l then none else some l
    selectedArtistId := none
    selectedArtworkId := none }

/-- Artist click handler (Overview.jsx 1563-1572 and 1600-1609): toggles the
artist selection and leaves the label and artwork selections untouched. -/
def clickArtist (a : String) (s : SelState) : SelState :=
  { s with selectedArtistId := if s.selectedArtistId = some a then none else some a }

/-- Artwork dot click handler (Overview.jsx 916, 949, 2025): toggles the
artwork selection only. -/
def clickArtwork (w : String) (s : SelState) : SelState :=
  { s with selectedArtworkId := if s.selectedArtworkId = some w then none else some w }

/-- Background click handler (Overview.jsx 540-544): clears all three. -/
def clickBackground (_s : SelState) : SelState := ⟨none, none, none⟩

/-- One interaction-controller transition. -/
inductive SelStep : SelState → SelState → Prop
  | label (l : String) (s : SelState) : SelStep s (clickLabel l s)
  | artist (a : String) (s : SelState) : SelStep s (clickArtist a s)
  | artwork (w : String) (s : SelState) : SelStep s (clickArtwork w s)
  | background (s : SelState) : SelStep s (clickBackground s)

/-- Selection states reachable from the initial state by click transitions. -/
inductive ReachableSel : SelState → Prop
  | init : ReachableSel initSelState
  | step {s t : SelState} : ReachableSel s → SelStep s t → ReachableSel t

/-- C2 counterexample: the claimed invariant "the contributor selection and the
label selection are never both non-empty after any selection transition" is
false: selecting a label and then a contributor reaches a state where both are
non-empty, because the artist click handler does not clear the label. -/
theorem c2_counterexample :
    ¬ (∀ s : SelState, ReachableSel s →
        ¬ (s.selectedArtistId ≠ none ∧ s.selectedLabelId ≠ none)) := by
  intro h
  have hr : ReachableSel (clickArtist "a1" (clickLabel "l1" initSelState)) :=
    ReachableSel.step
      (ReachableSel.step ReachableSel.init (SelStep.label "l1" initSelState))
      (SelStep.artist "a1" (clickLabel "l1" initSelState))
  exact h _ hr (by decide)

/-- C2 amended: selecting a label clears the contributor selection, but
selecting a contributor leaves the label selection unchanged; consequently a
state with both selections non-empty is reachable (label first, then
contributor). -/
theorem c2_amended_selection_asymmetry :
    (∀ (s : SelState) (l : String), (clickLabel l s).selectedArtistId = none) ∧
    (∀ (s : SelState) (a : String), (clickArtist a s).selectedLabelId = s.selectedLabelId) ∧
    (∃ s : SelState, ReachableSel s ∧
      s.selectedArtistId ≠ none ∧ s.selectedLabelId ≠ none) := by
  refine ⟨fun s l => rfl, fun s a => rfl, ⟨clickArtist "a1" (clickLabel "l1" initSelState), ?_, by decide, by decide⟩⟩
  exact ReachableSel.step
    (ReachableSel.step ReachableSel.init (SelStep.label "l1" initSelState))
    (SelStep.artist "a1" (clickLabel "l1" initSelState))

/-- C10: when a label selection and a contributor selection are simultaneously
non-empty (a reachable state), the visible-work set is computed from the
label's recorded-union-distributed set only; the contributor restriction is
not applied. -/
theorem c10_label_precedence :
    (∃ s : SelState, ReachableSel s ∧
      s.selectedArtistId ≠ none ∧ s.selectedLabelId ≠ none) ∧
    (∀ (nodes dataNodes : List MusicNode) (sg ig : Finset String) (lid aid : String),
      filteredNodes nodes dataNodes sg ig (some lid) (some aid) =
        filteredNodes nodes dataNodes sg ig (some lid) none) ∧
    (∀ (nodes dataNodes : List MusicNode) (sg ig : Finset String) (lid aid : String)
      (lbl : MusicNode), nodeById dataNodes lid = some lbl →
      ∀ n ∈ filteredNodes nodes dataNodes sg ig (some lid) (some aid),
        n.id ∈ lbl.recordedArtwork.getD [] ++ lbl.distributedArtwork.getD []) := by
  refine ⟨⟨clickArtist "a1" (clickLabel "l1" initSelState), ?_, by decide, by decide⟩, ?_, ?_⟩
  · exact ReachableSel.step
      (ReachableSel.step ReachableSel.init (SelStep.label "l1" initSelState))
      (SelStep.artist "a1" (clickLabel "l1" initSelState))
  · intro nodes dataNodes sg ig lid aid
    unfold filteredNodes labelArtistFiltered
    rfl
  · intro nodes dataNodes sg ig lid aid lbl hlbl n hn
    simp only [filteredNodes, labelArtistFiltered, hlbl, List.mem_filter] at hn
    simpa [List.contains, List.elem_iff] using hn.2

/-- Witness for C10's label-restriction clause at a concrete dataset: a label
selecting work "w1" restricts the visible set to members of its
recorded-union-distributed list. -/
theorem c10_witness :
    nodeById [({ id := "lab1", recordedArtwork := some ["w1"] } : MusicNode)] "lab1" =
      some ({ id := "lab1", recordedArtwork := some ["w1"] } : MusicNode) ∧
    ∀ n ∈ filteredNodes [({ id := "w1", genre := some "Synthpop" } : MusicNode)]
        [({ id := "lab1", recordedArtwork := some ["w1"] } : MusicNode)]
        ∅ ∅ (some "lab1") (some "a1"),
      n.id ∈ (({ id := "lab1", recordedArtwork := some ["w1"] } : MusicNode)).recordedArtwork.getD [] ++
        (({ id := "lab1", recordedArtwork := some ["w1"] } : MusicNode)).distributedArtwork.getD [] :=
  ⟨by decide,
   c10_label_precedence.2.2
     [{ id := "w1", genre := some "Synthpop" }]
     [{ id := "lab1", recordedArtwork := some ["w1"] }]
     ∅ ∅ "lab1" "a1" _ (by decide)⟩

/-- Contributor band index `getBandIdx` (Overview.jsx 982-985):
`if (!inf || inf === 0) return 0; return 1 + Math.floor(Math.log10(inf));`.
For a positive integer `n`, `Math.floor(Math.log10(n))` equals `Nat.log 10 n`. -/
def getBandIdx (inf : ℕ) : ℕ :=
  if inf = 0 then 0 else 1 + Nat.log 10 inf

/-- C6: the band index is `0` at zero (or absent) influence and
`1 + floor(log10 n)` otherwise; equivalently `band n = k + 1` exactly on
`10^k ≤ n < 10^(k+1)`; the spec's sample values `band(0)=0, band(1)=1,
band(10)=2, band(99)=2, band(100)=3` all hold. -/
theorem c6_band_index :
    getBandIdx 0 = 0 ∧ getBandIdx 1 = 1 ∧ getBandIdx 10 = 2 ∧
    getBandIdx 99 = 2 ∧ getBandIdx 100 = 3 ∧
    (∀ n : ℕ, n ≠ 0 → getBandIdx n = 1 + Nat.log 10 n) ∧
    (∀ n k : ℕ, 10 ^ k ≤ n → n < 10 ^ (k + 1) → getBandIdx n = k + 1) := by
  have key : ∀ n k : ℕ, 10 ^ k ≤ n → n < 10 ^ (k + 1) → getBandIdx n = k + 1 := by
    intro n k h1 h2
    have hp : 0 < n := lt_of_lt_of_le (pow_pos (by norm_num : (0 : ℕ) < 10) k) h1
    rw [getBandIdx, if_neg hp.ne', Nat.log_eq_of_pow_le_of_lt_pow h1 h2, Nat.add_comm]
  refine ⟨by simp [getBandIdx], ?_, ?_, ?_, ?_, fun n hn => by simp [getBandIdx, hn], key⟩
  · exact key 1 0 (by norm_num) (by norm_num)
  · exact key 10 1 (by norm_num) (by norm_num)
  · exact key 99 1 (by norm_num) (by norm_num)
  · exact key 100 2 (by norm_num) (by norm_num)

/-- Witness for C6 at the fresh input 5000 (order of magnitude 3). -/
theorem c6_witness : getBandIdx 5000 = 4 :=
  c6_band_index.2.2.2.2.2.2 5000 3 (by norm_num) (by norm_num)

/-- Position formula of `d3.scalePoint()` with default padding and align 0.5:
for a domain of `n` points, the `i`-th point maps to
`r0 + i * (r1 - r0) / (n - 1)`, and to the range midpoint for a singleton
domain (Overview.jsx 447-452, App.jsx 345-350). -/
def scalePoint (r0 r1 : ℚ) (n i : ℕ) : ℚ :=
  if n ≤ 1 then r0 + (r1 - r0) / 2
  else r0 + (i : ℚ) * ((r1 - r0) / ((n : ℚ) - 1))

/-- Arc start angle `-π/4`, in units of π (Overview.jsx 445). -/
def arcStartQ : ℚ := -(1 / 4)

/-- Arc end angle `π/4`, in units of π (Overview.jsx 446). -/
def arcEndQ : ℚ := 1 / 4

/-- The ordinal temporal scale: the angle (in units of π) assigned to the year
at index `i` of the sorted `n`-year domain `arcYears`. -/
def angleScaleAt (n i : ℕ) : ℚ := scalePoint arcStartQ arcEndQ n i

/-- C8: for every sorted list of distinct years, the ordinal temporal scale
onto the 90° arc is strictly monotonic: `year[i] < year[j]` implies
`angle(year[i]) < angle(year[j])` (multiplying the π-unit angles by π > 0
preserves the strict inequality). -/
theorem c8_angle_scale_strict_mono (years : List ℤ)
    (hs : years.Sorted (· < ·)) (i j : Fin years.length)
    (hij : years.get i < years.get j) :
    angleScaleAt years.length i < angleScaleAt years.length j := by
  have hlt : (i : ℕ) < (j : ℕ) := by
    rcases lt_trichotomy (i : ℕ) (j : ℕ) with h | h | h
    · exact h
    · exact absurd hij (by simp [Fin.ext (by exact h : (i : ℕ) = j)])
    · exact absurd (hs.rel_get_of_lt (by exact h)) (lt_asymm hij)
  have hn2 : 2 ≤ years.length := by
    have := j.isLt
    omega
  unfold angleScaleAt scalePoint
  rw [if_neg (by omega), if_neg (by omega)]
  have hcast : (2 : ℚ) ≤ (years.length : ℚ) := by exact_mod_cast hn2
  have hstep : 0 < (arcEndQ - arcStartQ) / ((years.length : ℚ) - 1) := by
    apply div_pos
    · norm_num [arcStartQ, arcEndQ]
    · linarith
  have hij' : ((i : ℕ) : ℚ) < ((j : ℕ) : ℚ) := by exact_mod_cast hlt
  have := mul_lt_mul_of_pos_right hij' hstep
  linarith

/-- Witness for C8 at the year domain [2000, 2005, 2010], indices 0 and 2. -/
theorem c8_witness :
    ([2000, 2005, 2010] : List ℤ).Sorted (· < ·) ∧
    angleScaleAt 3 0 < angleScaleAt 3 2 :=
  ⟨by decide,
   c8_angle_scale_strict_mono [2000, 2005, 2010] (by decide)
     ⟨0, by decide⟩ ⟨2, by decide⟩ (by decide)⟩

/-- Render condition of the per-year influence-source pie glyph
(Overview.jsx 629): `if (influenceGenres.size === genres.length)`. -/
def pieGlyphRendered (influenceGenres : Finset String) : Bool :=
  influenceGenres.card == FLAT_GENRES.length

/-- The label/artist stage only ever narrows its input list. -/
theorem mem_of_mem_labelArtistFiltered {dataNodes : List MusicNode}
    {lid aid : Option String} {f : List MusicNode} {n : MusicNode}
    (h : n ∈ labelArtistFiltered dataNodes lid aid f) : n ∈ f := by
  unfold labelArtistFiltered at h
  repeat' split at h
  all_goals first
    | exact h
    | exact List.mem_of_mem_filter h

/-- C7 counterexample: with the influence-genre-selection equal to the full
vocabulary, the pie glyph is on, but the selection is not merely an on/off
switch: a work with an empty influence-source list is visible under the empty
selection yet filtered out under the full-vocabulary selection. -/
theorem c7_counterexample :
    pieGlyphRendered fullGenreSet = true ∧
    filteredNodes [({ id := "w1", genre := some "Acoustic Folk", influencedBy := some [] } : MusicNode)]
        [({ id := "w1", genre := some "Acoustic Folk", influencedBy := some [] } : MusicNode)]
        fullGenreSet fullGenreSet none none = [] ∧
    filteredNodes [({ id := "w1", genre := some "Acoustic Folk", influencedBy := some [] } : MusicNode)]
        [({ id := "w1", genre := some "Acoustic Folk", influencedBy := some [] } : MusicNode)]
        fullGenreSet ∅ none none =
      [({ id := "w1", genre := some "Acoustic Folk", influencedBy := some [] } : MusicNode)] := by
  refine ⟨by decide, by decide, by decide⟩

/-- C7 amended: among selections drawn from the vocabulary, the pie glyph is
rendered exactly when the influence-genre-selection equals the full
vocabulary; in that all-selected state the selection still acts as a filter on
the visible-work set, restricting it to works that cite at least one
influence source whose genre lies in the selection. -/
theorem c7_amended_pie_condition (s : Finset String) (hsub : s ⊆ fullGenreSet) :
    (pieGlyphRendered s = true ↔ s = fullGenreSet) ∧
    (pieGlyphRendered s = true →
      ∀ (nodes dataNodes : List MusicNode) (lid aid : Option String) (sg : Finset String),
        ∀ n ∈ filteredNodes nodes dataNodes sg s lid aid,
          ∃ ids, n.influencedBy = some ids ∧
            ∃ i ∈ ids,
              i ∈ (dataNodes.filter fun m => optGenreMem m.genre s).map (fun m => m.id)) := by
  have hcard : fullGenreSet.card = 26 := by decide
  have hiff : pieGlyphRendered s = true ↔ s = fullGenreSet := by
    unfold pieGlyphRendered
    rw [beq_iff_eq]
    constructor
    · intro h
      exact Finset.eq_of_subset_of_card_le hsub (by rw [hcard]; rw [h]; rfl)
    · intro h
      rw [h, hcard]
      rfl
  refine ⟨hiff, fun hpie nodes dataNodes lid aid sg n hn => ?_⟩
  have h0 : 0 < s.card := by
    rw [hiff.mp hpie, hcard]
    norm_num
  have hmem : n ∈ influenceFiltered dataNodes s (genreFiltered nodes sg) :=
    mem_of_mem_labelArtistFiltered hn
  unfold influenceFiltered at hmem
  rw [if_pos h0] at hmem
  rw [List.mem_filter] at hmem
  have hpred := hmem.2
  cases hib : n.influencedBy with
  | none => rw [hib] at hpred; exact absurd hpred (by simp)
  | some ids =>
    rw [hib] at hpred
    rw [List.any_eq_true] at hpred
    obtain ⟨i, hi, hcontains⟩ := hpred
    exact ⟨ids, rfl, i, hi, by simpa [List.contains, List.elem_iff] using hcontains⟩

/-- Witness for C7 at the full-vocabulary selection. -/
theorem c7_witness : pieGlyphRendered fullGenreSet = true ↔ fullGenreSet = fullGenreSet :=
  (c7_amended_pie_condition fullGenreSet (Finset.Subset.refl fullGenreSet)).1

/-- A d3 zoom transform: uniform scale factor `k` and translation `(x, y)`.
`d3.zoomIdentity` is `⟨1, 0, 0⟩`. -/
structure ZoomTransform where
  k : ℚ
  x : ℚ
  y : ℚ
deriving DecidableEq

/-- `d3.zoomIdentity`. -/
def zoomIdentity : ZoomTransform := ⟨1, 0, 0⟩

/-- d3 `transform.translate(a, b)`. -/
def ZoomTransform.translate (t : ZoomTransform) (a b : ℚ) : ZoomTransform :=
  ⟨t.k, t.x + t.k * a, t.y + t.k * b⟩

/-- d3 `transform.scale(m)`. -/
def ZoomTransform.scale (t : ZoomTransform) (m : ℚ) : ZoomTransform :=
  ⟨t.k * m, t.x, t.y⟩

/-- d3 `transform.apply([px, py])`: scale the point by `k`, then translate. -/
def ZoomTransform.apply (t : ZoomTransform) (p : ℚ × ℚ) : ℚ × ℚ :=
  (t.k * p.1 + t.x, t.k * p.2 + t.y)

/-- JS `Math.round` (round half toward positive infinity) on a rational. -/
def jsRound (q : ℚ) : ℤ := ⌊q + 1 / 2⌋

/-- Effective first/last year of the view-fit computation (App.jsx 426-438): a
filtered span below the enforced minimum of 40 years (`minYearRange`) is
expanded around the rounded midpoint of the filtered range. -/
def effectiveYearSpan (filteredYears : List ℤ) : ℤ × ℤ :=
  let firstYear := filteredYears.headD 0
  let lastYear := filteredYears.getLastD 0
  let yearRange := lastYear - firstYear
  if yearRange < 40 then
    let midYear := jsRound (((firstYear : ℚ) + (lastYear : ℚ)) / 2)
    (min firstYear (midYear - 20), max lastYear (midYear + 20))
  else
    (firstYear, lastYear)

/-- Angle (in units of π) of a year on the arc scale, offset by `-π/2`, with
the fallback to the domain year at index `fallbackIdx` used by the view-fit
code when the year is not in the domain (App.jsx 440-441). -/
def yearAngle (arcYears : List ℤ) (fallbackIdx : ℕ) (y : ℤ) : ℚ :=
  (if arcYears.contains y then angleScaleAt arcYears.length (arcYears.findIdx (· == y))
   else angleScaleAt arcYears.length fallbackIdx) - 1 / 2

/-- Midpoint of the narrowed angular span in screen coordinates
(App.jsx 442-444), with `radius = 1500`, `centerX = width / 2`,
`centerY = arcMidY - radius·cos(arcAngle/2)` and `arcMidY = 3000`. -/
def viewFitMid (cosf sinf : ℚ → ℚ) (width : ℚ)
    (arcYears filteredYears : List ℤ) : ℚ × ℚ :=
  let radius : ℚ := 1500
  let centerX := width / 2
  let centerY := 3000 - radius * cosf (1 / 4)
  let eff := effectiveYearSpan filteredYears
  let firstAngle := yearAngle arcYears 0 eff.1
  let lastAngle := yearAngle arcYears (arcYears.length - 1) eff.2
  let midAngle := (firstAngle + lastAngle) / 2
  (centerX + cosf midAngle * radius, centerY + sinf midAngle * radius)

/-- The view-fit scale factor (App.jsx 445-452): `desiredSpan / dist` clamped
by `maxScale = 1.1`.  Division by zero in `ℚ` yields `0`, which the clamp also
bounds, so the stated bound holds under both the JS and the `ℚ` convention. -/
def viewFitScale (cosf sinf sqrtf : ℚ → ℚ) (width : ℚ)
    (arcYears filteredYears : List ℤ) : ℚ :=
  let radius : ℚ := 1500
  let centerX := width / 2
  let centerY := 3000 - radius * cosf (1 / 4)
  let eff := effectiveYearSpan filteredYears
  let firstAngle := yearAngle arcYears 0 eff.1
  let lastAngle := yearAngle arcYears (arcYears.length - 1) eff.2
  let x1 := centerX + cosf firstAngle * radius
  let y1 := centerY + sinf firstAngle * radius
  let x2 := centerX + cosf lastAngle * radius
  let y2 := centerY + sinf lastAngle * radius
  let dist := sqrtf ((x2 - x1) ^ 2 + (y2 - y1) ^ 2)
  let desiredSpan := width * (8 / 10)
  min (desiredSpan / dist) (11 / 10)

/-- The view-fit transform (App.jsx 453-456):
`d3.zoomIdentity.translate(centerX, zoomArcMidY).scale(scale).translate(-midX, -midY)`
with `zoomArcMidY = height * 0.2 = 400`. -/
def viewFitTransform (cosf sinf sqrtf : ℚ → ℚ) (width : ℚ)
    (arcYears filteredYears : List ℤ) : ZoomTransform :=
  ((zoomIdentity.translate (width / 2) 400).scale
      (viewFitScale cosf sinf sqrtf width arcYears filteredYears)).translate
    (-(viewFitMid cosf sinf width arcYears filteredYears).1)
    (-(viewFitMid cosf sinf width arcYears filteredYears).2)

/-- Whether any narrowing filter is active (App.jsx 418). -/
def filterActive (selectedGenres influenceGenres : Finset String)
    (selectedArtistId selectedLabelId : Option String) : Bool :=
  (selectedGenres.card != FLAT_GENRES.length) || (influenceGenres.card != 0) ||
    selectedArtistId.isSome || selectedLabelId.isSome

/-- The zoom transform of a frame (App.jsx 424-457): the view-fit transform
when an active filter narrows the distinct visible years to fewer than
`arcYears.length - 5` (and more than one), the identity otherwise. -/
def computeZoomTransform (cosf sinf sqrtf : ℚ → ℚ) (width : ℚ)
    (arcYears filteredYears : List ℤ) (fa : Bool) : ZoomTransform :=
  if fa && decide (1 < filteredYears.length) &&
      decide ((filteredYears.length : ℤ) < (arcYears.length : ℤ) - 5) then
    viewFitTransform cosf sinf sqrtf width arcYears filteredYears
  else zoomIdentity

/-- The minimum-span guarantee of the effective year range: the effective span
never shrinks the filtered span below `min(span, 40)`, and a span under 40
years is expanded to at least 40 years. -/
theorem effectiveYearSpan_min_enforced (filteredYears : List ℤ) :
    (effectiveYearSpan filteredYears).2 - (effectiveYearSpan filteredYears).1 ≥
      min (filteredYears.getLastD 0 - filteredYears.headD 0) 40 ∧
    (filteredYears.getLastD 0 - filteredYears.headD 0 < 40 →
      (effectiveYearSpan filteredYears).2 - (effectiveYearSpan filteredYears).1 ≥ 40) := by
  simp only [effectiveYearSpan]
  split_ifs with h
  · set m := jsRound (((filteredYears.headD 0 : ℚ) + (filteredYears.getLastD 0 : ℚ)) / 2)
    have h1 : min (filteredYears.headD 0) (m - 20) ≤ m - 20 := min_le_right _ _
    have h2 : m + 20 ≤ max (filteredYears.getLastD 0) (m + 20) := le_max_right _ _
    have h3 : min (filteredYears.getLastD 0 - filteredYears.headD 0) 40 ≤ 40 := min_le_right _ _
    constructor
    · linarith
    · intro
      linarith
  · constructor
    · exact min_le_left _ _
    · intro hc
      exact absurd hc h

/-- C3: when no filter narrows the range, or not enough years are excluded,
the zoom transform is the identity; when an active filter narrows the
distinct visible years enough, the transform is a single uniform
scale-plus-translate whose scale factor is capped at 1.1, which maps the
midpoint of the narrowed angular span to the fixed screen anchor
`(width/2, 400)` (centering), and whose effective year span obeys the
enforced minimum of 40 years.  Stated for arbitrary cosine/sine/square-root
evaluation functions. -/
theorem c3_view_fit_transform (cosf sinf sqrtf : ℚ → ℚ) (width : ℚ)
    (arcYears filteredYears : List ℤ) (fa : Bool) :
    (¬ (fa = true ∧ 1 < filteredYears.length ∧
        (filteredYears.length : ℤ) < (arcYears.length : ℤ) - 5) →
      computeZoomTransform cosf sinf sqrtf width arcYears filteredYears fa = zoomIdentity) ∧
    ((fa = true ∧ 1 < filteredYears.length ∧
        (filteredYears.length : ℤ) < (arcYears.length : ℤ) - 5) →
      (computeZoomTransform cosf sinf sqrtf width arcYears filteredYears fa).k =
        viewFitScale cosf sinf sqrtf width arcYears filteredYears ∧
      viewFitScale cosf sinf sqrtf width arcYears filteredYears ≤ 11 / 10 ∧
      (∀ p : ℚ × ℚ,
        (computeZoomTransform cosf sinf sqrtf width arcYears filteredYears fa).apply p =
          ((computeZoomTransform cosf sinf sqrtf width arcYears filteredYears fa).k * p.1 +
              (computeZoomTransform cosf sinf sqrtf width arcYears filteredYears fa).x,
            (computeZoomTransform cosf sinf sqrtf width arcYears filteredYears fa).k * p.2 +
              (computeZoomTransform cosf sinf sqrtf width arcYears filteredYears fa).y)) ∧
      (computeZoomTransform cosf sinf sqrtf width arcYears filteredYears fa).apply
          (viewFitMid cosf sinf width arcYears filteredYears) = (width / 2, 400) ∧
      (effectiveYearSpan filteredYears).2 - (effectiveYearSpan filteredYears).1 ≥
        min (filteredYears.getLastD 0 - filteredYears.headD 0) 40 ∧
      (filteredYears.getLastD 0 - filteredYears.headD 0 < 40 →
        (effectiveYearSpan filteredYears).2 - (effectiveYearSpan filteredYears).1 ≥ 40)) := by
  constructor
  · intro h
    unfold computeZoomTransform
    rw [if_neg]
    intro hb
    exact h (by simpa [and_assoc] using hb)
  · intro h
    have hb : (fa && decide (1 < filteredYears.length) &&
        decide ((filteredYears.length : ℤ) < (arcYears.length : ℤ) - 5)) = true := by
      simpa [and_assoc] using h
    have ht : computeZoomTransform cosf sinf sqrtf width arcYears filteredYears fa =
        viewFitTransform cosf sinf sqrtf width arcYears filteredYears := by
      unfold computeZoomTransform
      rw [if_pos hb]
    refine ⟨?_, min_le_right _ _, fun p => rfl, ?_,
      (effectiveYearSpan_min_enforced filteredYears).1,
      (effectiveYearSpan_min_enforced filteredYears).2⟩
    · rw [ht]
      simp [viewFitTransform, ZoomTransform.translate, ZoomTransform.scale, zoomIdentity]
    · rw [ht]
      simp only [viewFitTransform, ZoomTransform.translate, ZoomTransform.scale,
        ZoomTransform.apply, zoomIdentity, Prod.mk.injEq]
      constructor
      · ring
      · ring

/-- Witness for C3 with 8 domain years, 2 filtered years, and concrete
(constant-zero) trigonometric evaluation functions. -/
theorem c3_witness :
    (true = true ∧ 1 < ([2000, 2005] : List ℤ).length ∧
      (([2000, 2005] : List ℤ).length : ℤ) <
        (([1990, 1995, 2000, 2005, 2010, 2015, 2020, 2025] : List ℤ).length : ℤ) - 5) ∧
    viewFitScale (fun _ => 0) (fun _ => 0) (fun _ => 0) 100
      [1990, 1995, 2000, 2005, 2010, 2015, 2020, 2025] [2000, 2005] ≤ 11 / 10 :=
  ⟨⟨rfl, by decide, by decide⟩,
   ((c3_view_fit_transform (fun _ => 0) (fun _ => 0) (fun _ => 0) 100
      [1990, 1995, 2000, 2005, 2010, 2015, 2020, 2025] [2000, 2005] true).2
      ⟨rfl, by decide, by decide⟩).2.1⟩

/-- One entry of a contributor's influence time series `node.influence`:
`{year, score}`, with `year = none` modelling the `"Unknown"` /
non-numeric-year case of Overview.jsx 1157-1163. -/
structure InfluenceEvent where
  year : Option ℤ
  score : ℚ
deriving DecidableEq

/-- The cleaned influence array (Overview.jsx 1154-1173): numeric-year events
are kept; the total score of unknown-year events, when positive, is appended
as an equal share onto every contributed year. -/
def cleanInfluenceArray (influence : List InfluenceEvent) (yearsContributed : List ℤ) :
    List (ℤ × ℚ) :=
  let clean := influence.filterMap fun e => e.year.map fun y => (y, e.score)
  let unknownInfluence :=
    ((influence.filter fun e => e.year.isNone).map (fun e => e.score)).sum
  if 0 < unknownInfluence ∧ yearsContributed ≠ [] then
    clean ++ yearsContributed.map fun y => (y, unknownInfluence / (yearsContributed.length : ℚ))
  else clean

/-- The sorted deduplicated union of contributed-work years and influence
years (Overview.jsx 1174-1178). -/
def tailYearsList (yearsContributed : List ℤ) (clean : List (ℤ × ℚ)) : List ℤ :=
  ((yearsContributed ++ clean.map (fun p => p.1)).dedup).insertionSort (· ≤ ·)

/-- Whether some influence event is tagged with year `y`
(`cleanInfluenceArray.some(inf => String(inf.year) === year)`,
Overview.jsx 1183-1185). -/
def isKnownYear (clean : List (ℤ × ℚ)) (y : ℤ) : Bool :=
  clean.any fun p => p.1 == y

/-- Total score of the influence events tagged with year `y`
(Overview.jsx 1194-1196). -/
def yearScore (clean : List (ℤ × ℚ)) (y : ℤ) : ℚ :=
  ((clean.filter fun p => p.1 == y).map (fun p => p.2)).sum

/-- The running sum `runningSum` of known-year scores after processing index
`i` of the year list (Overview.jsx 1190-1200); the year list is duplicate
free, so the year-keyed `cumulativeByKnownYear` and this index-keyed form
agree at every known index. -/
def cumAt (clean : List (ℤ × ℚ)) (ys : List ℤ) (i : ℕ) : ℚ :=
  (((ys.take (i + 1)).filter (isKnownYear clean)).map (yearScore clean)).sum

/-- The `lastKnownIdx` cursor of the fill loop (Overview.jsx 1202-1208): the
greatest known index strictly before `i`. -/
def lastKnownBefore (clean : List (ℤ × ℚ)) (ys : List ℤ) : ℕ → Option ℕ
  | 0 => none
  | i + 1 => if isKnownYear clean (ys.getD i 0) then some i else lastKnownBefore clean ys i

/-- The `nextKnownIdx` search of the fill loop (Overview.jsx 1210-1220):
`for (let j = i + 1; j < yearsList.length; ++j) if (known(j)) break`. -/
def nextKnownAfter (clean : List (ℤ × ℚ)) (ys : List ℤ) (i : ℕ) : Option ℕ :=
  if i + 1 < ys.length then
    if isKnownYear clean (ys.getD (i + 1) 0) then some (i + 1)
    else nextKnownAfter clean ys (i + 1)
  else none
termination_by ys.length - i

/-- The fill loop body (Overview.jsx 1202-1236): the cumulative influence at
index `i` — the running sum at a known index; linear interpolation between
the nearest known neighbours at an interior unknown index; clamping to the
one-sided known value at a leading or trailing unknown index; `0` when no
index is known at all. -/
def influenceAt (clean : List (ℤ × ℚ)) (ys : List ℤ) (i : ℕ) : ℚ :=
  if isKnownYear clean (ys.getD i 0) then cumAt clean ys i
  else
    match lastKnownBefore clean ys i, nextKnownAfter clean ys i with
    | none, some n => cumAt clean ys n
    | some l, none => cumAt clean ys l
    | some l, some n =>
        cumAt clean ys l + (((i : ℚ) - (l : ℚ)) / ((n : ℚ) - (l : ℚ))) *
          (cumAt clean ys n - cumAt clean ys l)
    | none, none => 0

/-- The cumulative-influence sequence of a ribbon over its ordered year list:
the values of `influenceByYear` (Overview.jsx 1180-1236) read in ascending
year order, which is how `Object.values` enumerates the integer-keyed map. -/
def influenceByYearSeq (influence : List InfluenceEvent) (yearsContributed : List ℤ) :
    List ℚ :=
  let clean := cleanInfluenceArray influence yearsContributed
  let ys := tailYearsList yearsContributed clean
  (List.range ys.length).map (influenceAt clean ys)

/-- The ribbon control-point radii (Overview.jsx 1237-1255): cumulative values
mapped affinely onto `[tailMin, tailMax]`; when all cumulative values are
equal, the code falls back to linear interpolation from the start radius to
the end radius. -/
def tailRadii (vals : List ℚ) (tailMin tailMax : ℚ) : List ℚ :=
  let minTailInf := vals.foldr min (vals.headD 0)
  let maxTailInf := vals.foldr max (vals.headD 0)
  if maxTailInf ≠ minTailInf then
    vals.map fun v =>
      tailMin + ((v - minTailInf) / (maxTailInf - minTailInf)) * (tailMax - tailMin)
  else
    (List.range vals.length).map fun (i : ℕ) =>
      tailMin + ((i : ℚ) / ((vals.length : ℚ) - 1)) * (tailMax - tailMin)

/-- Concrete evaluation of the cleaned influence array in the spec's ribbon
scenario: one known event, year 2005, magnitude 5, nothing redistributed. -/
theorem cleanInfluenceArray_scenario :
    cleanInfluenceArray [⟨some 2005, 5⟩] [2000, 2005, 2010] = [(2005, 5)] := by
  norm_num [cleanInfluenceArray, List.filter, List.filterMap, Option.map, Option.isNone]

/-- Concrete evaluation of the ordered year list in the scenario. -/
theorem tailYearsList_scenario :
    tailYearsList [2000, 2005, 2010] [(2005, 5)] = [2000, 2005, 2010] := by
  norm_num [tailYearsList, List.insertionSort, List.orderedInsert, List.dedup, List.pwFilter]

/-- In the scenario the search for the next known index after index 0 finds
the known year 2005 at index 1. -/
theorem nextKnownAfter_scenario_zero :
    nextKnownAfter [(2005, 5)] [2000, 2005, 2010] 0 = some 1 := by
  rw [nextKnownAfter]
  norm_num [isKnownYear]

/-- In the scenario there is no known index after index 2. -/
theorem nextKnownAfter_scenario_two :
    nextKnownAfter [(2005, 5)] [2000, 2005, 2010] 2 = none := by
  rw [nextKnownAfter]
  norm_num

/-- The scenario's cumulative-influence sequence evaluates to `[5, 5, 5]`. -/
theorem influenceByYearSeq_scenario :
    influenceByYearSeq [⟨some 2005, 5⟩] [2000, 2005, 2010] = [5, 5, 5] := by
  have step1 : influenceByYearSeq [⟨some 2005, 5⟩] [2000, 2005, 2010] =
      (List.range (tailYearsList [2000, 2005, 2010]
          (cleanInfluenceArray [⟨some 2005, 5⟩] [2000, 2005, 2010])).length).map
        (influenceAt (cleanInfluenceArray [⟨some 2005, 5⟩] [2000, 2005, 2010])
          (tailYearsList [2000, 2005, 2010]
            (cleanInfluenceArray [⟨some 2005, 5⟩] [2000, 2005, 2010]))) := rfl
  rw [step1, cleanInfluenceArray_scenario, tailYearsList_scenario]
  norm_num [List.range_succ, influenceAt, cumAt, lastKnownBefore, isKnownYear, yearScore,
    List.filter_cons, List.take, nextKnownAfter_scenario_zero, nextKnownAfter_scenario_two]

/-- C4 counterexample: in the spec's scenario (works in 2000, 2005, 2010, one
influence event of magnitude 5 in 2005) the computed cumulative sequence is
not `[0, 5, 5]`: the year 2000, lying before the first known event year, is
clamped to the next known cumulative value 5, not to 0. -/
theorem c4_counterexample :
    influenceByYearSeq [⟨some 2005, 5⟩] [2000, 2005, 2010] ≠ [0, 5, 5] := by
  rw [influenceByYearSeq_scenario]
  intro hc
  exact absurd (List.head_eq_of_cons_eq hc) (by norm_num)

/-- C4 amended: in the scenario the ordered year list is `[2000, 2005, 2010]`
and the cumulative-influence sequence is `[5, 5, 5]` — the running total 5 at
the known year 2005, clamped backwards onto 2000 (nearest known successor)
and forwards onto 2010 (nearest known predecessor). -/
theorem c4_amended_cumulative_sequence :
    tailYearsList [2000, 2005, 2010]
        (cleanInfluenceArray [⟨some 2005, 5⟩] [2000, 2005, 2010]) = [2000, 2005, 2010] ∧
    influenceByYearSeq [⟨some 2005, 5⟩] [2000, 2005, 2010] = [5, 5, 5] := by
  constructor
  · rw [cleanInfluenceArray_scenario, tailYearsList_scenario]
  · exact influenceByYearSeq_scenario

/-- A year's total event score is non-negative when all event scores are. -/
theorem yearScore_nonneg {clean : List (ℤ × ℚ)} (hpos : ∀ p ∈ clean, 0 ≤ p.2) (y : ℤ) :
    0 ≤ yearScore clean y := by
  apply List.sum_nonneg
  intro a ha
  simp only [List.mem_map] at ha
  obtain ⟨p, hp, rfl⟩ := ha
  exact hpos p (List.mem_of_mem_filter hp)

/-- The running known-year prefix sum is monotone in the index when all
scores are non-negative. -/
theorem cumAt_mono {clean : List (ℤ × ℚ)} (hpos : ∀ p ∈ clean, 0 ≤ p.2)
    (ys : List ℤ) {i j : ℕ} (hij : i ≤ j) :
    cumAt clean ys i ≤ cumAt clean ys j := by
  unfold cumAt
  have hsub : List.Sublist (ys.take (i + 1)) (ys.take (j + 1)) := by
    rw [show i + 1 = min (i + 1) (j + 1) by omega, ← List.take_take]
    exact List.take_sublist _ _
  refine List.Sublist.sum_le_sum ((hsub.filter _).map _) ?_
  intro a ha
  simp only [List.mem_map] at ha
  obtain ⟨y, _, rfl⟩ := ha
  exact yearScore_nonneg hpos y

/-- The `lastKnownIdx` cursor always points strictly before the current index. -/
theorem lastKnownBefore_lt {clean : List (ℤ × ℚ)} {ys : List ℤ} :
    ∀ {i l : ℕ}, lastKnownBefore clean ys i = some l → l < i := by
  intro i
  induction i with
  | zero => intro l h; exact absurd h (by simp [lastKnownBefore])
  | succ i ih =>
    intro l h
    rw [lastKnownBefore] at h
    by_cases hk : isKnownYear clean (ys.getD i 0) = true
    · rw [if_pos hk] at h
      injection h with hh
      omega
    · rw [if_neg hk] at h
      exact Nat.lt_succ_of_lt (ih h)

/-- The `nextKnownIdx` search always lands strictly after the current index. -/
theorem nextKnownAfter_gt {clean : List (ℤ × ℚ)} {ys : List ℤ} :
    ∀ {i n : ℕ}, nextKnownAfter clean ys i = some n → i < n := by
  have key : ∀ d i n, ys.length - i ≤ d → nextKnownAfter clean ys i = some n → i < n := by
    intro d
    induction d with
    | zero =>
      intro i n hle h
      rw [nextKnownAfter, if_neg (by omega)] at h
      exact absurd h (by simp)
    | succ d ih =>
      intro i n hle h
      rw [nextKnownAfter] at h
      by_cases hlen : i + 1 < ys.length
      · rw [if_pos hlen] at h
        by_cases hk : isKnownYear clean (ys.getD (i + 1) 0) = true
        · rw [if_pos hk] at h
          injection h with hh
          omega
        · rw [if_neg hk] at h
          have := ih (i + 1) n (by omega) h
          omega
      · rw [if_neg hlen] at h
        exact absurd h (by simp)
  intro i n h
  exact key (ys.length - i) i n le_rfl h

/-- One step of the fill loop never decreases the cumulative value: every
case pair (known/unknown at `i` and `i+1`) yields a non-decreasing step. -/
theorem influenceAt_le_succ {clean : List (ℤ × ℚ)} {ys : List ℤ}
    (hpos : ∀ p ∈ clean, 0 ≤ p.2) {i : ℕ} (hlen : i + 1 < ys.length) :
    influenceAt clean ys i ≤ influenceAt clean ys (i + 1) := by
  by_cases hki : isKnownYear clean (ys.getD i 0) = true
  · by_cases hki1 : isKnownYear clean (ys.getD (i + 1) 0) = true
    · rw [influenceAt, influenceAt, if_pos hki, if_pos hki1]
      exact cumAt_mono hpos ys (by omega)
    · rw [influenceAt, influenceAt, if_pos hki, if_neg hki1]
      have hl : lastKnownBefore clean ys (i + 1) = some i := by
        rw [lastKnownBefore, if_pos hki]
      rw [hl]
      cases hn : nextKnownAfter clean ys (i + 1) with
      | none => exact le_rfl
      | some n =>
        have hgt : i + 1 < n := nextKnownAfter_gt hn
        have hmono : cumAt clean ys i ≤ cumAt clean ys n := cumAt_mono hpos ys (by omega)
        show cumAt clean ys i ≤ cumAt clean ys i +
          (((i + 1 : ℕ) : ℚ) - (i : ℚ)) / ((n : ℚ) - (i : ℚ)) *
            (cumAt clean ys n - cumAt clean ys i)
        have h1 : ((i + 1 : ℕ) : ℚ) < (n : ℚ) := by exact_mod_cast hgt
        push_cast at h1
        refine le_add_of_nonneg_right (mul_nonneg (div_nonneg ?_ ?_) ?_)
        · push_cast
          linarith
        · linarith
        · linarith
  · have hl0 : lastKnownBefore clean ys (i + 1) = lastKnownBefore clean ys i := by
      rw [lastKnownBefore, if_neg hki]
    by_cases hki1 : isKnownYear clean (ys.getD (i + 1) 0) = true
    · rw [influenceAt, influenceAt, if_neg hki, if_pos hki1]
      have hn : nextKnownAfter clean ys i = some (i + 1) := by
        rw [nextKnownAfter, if_pos hlen, if_pos hki1]
      rw [hn]
      cases hl : lastKnownBefore clean ys i with
      | none => exact le_rfl
      | some l =>
        have hll : l < i := lastKnownBefore_lt hl
        have hmono : cumAt clean ys l ≤ cumAt clean ys (i + 1) := cumAt_mono hpos ys (by omega)
        show cumAt clean ys l + ((i : ℚ) - (l : ℚ)) / (((i + 1 : ℕ) : ℚ) - (l : ℚ)) *
            (cumAt clean ys (i + 1) - cumAt clean ys l) ≤ cumAt clean ys (i + 1)
        have hld : ((l : ℚ)) < (i : ℚ) := by exact_mod_cast hll
        have hdenom : (0 : ℚ) < ((i + 1 : ℕ) : ℚ) - (l : ℚ) := by push_cast; linarith
        have ht1 : ((i : ℚ) - (l : ℚ)) / (((i + 1 : ℕ) : ℚ) - (l : ℚ)) ≤ 1 := by
          rw [div_le_one hdenom]
          push_cast
          linarith
        have hstep : ((i : ℚ) - (l : ℚ)) / (((i + 1 : ℕ) : ℚ) - (l : ℚ)) *
            (cumAt clean ys (i + 1) - cumAt clean ys l) ≤
            cumAt clean ys (i + 1) - cumAt clean ys l :=
          mul_le_of_le_one_left (by linarith) ht1
        linarith
    · rw [influenceAt, influenceAt, if_neg hki, if_neg hki1]
      have hnn : nextKnownAfter clean ys i = nextKnownAfter clean ys (i + 1) := by
        rw [nextKnownAfter, if_pos hlen, if_neg hki1]
      rw [hl0, hnn]
      cases hl : lastKnownBefore clean ys i with
      | none =>
        cases hn : nextKnownAfter clean ys (i + 1) with
        | none => exact le_rfl
        | some n => exact le_rfl
      | some l =>
        cases hn : nextKnownAfter clean ys (i + 1) with
        | none => exact le_rfl
        | some n =>
          have hll : l < i := lastKnownBefore_lt hl
          have hgt : i + 1 < n := nextKnownAfter_gt hn
          have hmono : cumAt clean ys l ≤ cumAt clean ys n := cumAt_mono hpos ys (by omega)
          show cumAt clean ys l + ((i : ℚ) - (l : ℚ)) / ((n : ℚ) - (l : ℚ)) *
              (cumAt clean ys n - cumAt clean ys l) ≤
            cumAt clean ys l + (((i + 1 : ℕ) : ℚ) - (l : ℚ)) / ((n : ℚ) - (l : ℚ)) *
              (cumAt clean ys n - cumAt clean ys l)
          have hld : ((l : ℚ)) < (i : ℚ) := by exact_mod_cast hll
          have hn1 : ((i + 1 : ℕ) : ℚ) < (n : ℚ) := by exact_mod_cast hgt
          push_cast at hn1
          have hdenom : (0 : ℚ) < (n : ℚ) - (l : ℚ) := by linarith
          have hnum : ((i : ℚ) - (l : ℚ)) / ((n : ℚ) - (l : ℚ)) ≤
              (((i + 1 : ℕ) : ℚ) - (l : ℚ)) / ((n : ℚ) - (l : ℚ)) := by
            rw [div_le_div_iff_of_pos_right hdenom]
            push_cast
            linarith
          have := mul_le_mul_of_nonneg_right hnum
            (by linarith : (0 : ℚ) ≤ cumAt clean ys n - cumAt clean ys l)
          linarith

/-- Cleaning preserves non-negativity of scores: kept events keep their
score, and the redistributed unknown share is positive by the guard. -/
theorem cleanInfluenceArray_nonneg {influence : List InfluenceEvent}
    {yearsContributed : List ℤ} (hpos : ∀ e ∈ influence, 0 ≤ e.score) :
    ∀ p ∈ cleanInfluenceArray influence yearsContributed, 0 ≤ p.2 := by
  have hfm : ∀ p ∈ influence.filterMap (fun e => e.year.map fun y => (y, e.score)),
      0 ≤ p.2 := by
    intro p hp
    simp only [List.mem_filterMap] at hp
    obtain ⟨e, he, hf⟩ := hp
    cases hey : e.year with
    | none => rw [hey] at hf; exact absurd hf (by simp)
    | some y =>
      rw [hey] at hf
      simp only [Option.map_some'] at hf
      injection hf with hf2
      rw [← hf2]
      exact hpos e he
  intro p hp
  simp only [cleanInfluenceArray] at hp
  by_cases hcase : 0 < ((influence.filter fun e => e.year.isNone).map (fun e => e.score)).sum ∧
      yearsContributed ≠ []
  · rw [if_pos hcase] at hp
    rw [List.mem_append] at hp
    rcases hp with hp | hp
    · exact hfm p hp
    · simp only [List.mem_map] at hp
      obtain ⟨y, _, rfl⟩ := hp
      exact div_nonneg (le_of_lt hcase.1) (Nat.cast_nonneg _)
  · rw [if_neg hcase] at hp
    exact hfm p hp

/-- C5: for every input influence series with non-negative magnitudes and
every contributed-year set, the cumulative-influence sequence of a ribbon is
non-decreasing across its year index; in the degenerate all-equal case
(e.g. no known year at all) the radii fall back to linear interpolation
between the start and end radius, which is monotone whenever the start
radius does not exceed the end radius. -/
theorem c5_cumulative_monotone (influence : List InfluenceEvent)
    (yearsContributed : List ℤ) (hpos : ∀ e ∈ influence, 0 ≤ e.score) :
    (influenceByYearSeq influence yearsContributed).Chain' (· ≤ ·) ∧
    (∀ (vals : List ℚ) (tailMin tailMax : ℚ),
      vals.foldr max (vals.headD 0) = vals.foldr min (vals.headD 0) →
      tailRadii vals tailMin tailMax =
        (List.range vals.length).map (fun (i : ℕ) =>
          tailMin + ((i : ℚ) / ((vals.length : ℚ) - 1)) * (tailMax - tailMin)) ∧
      (tailMin ≤ tailMax → (tailRadii vals tailMin tailMax).Chain' (· ≤ ·))) := by
  constructor
  · have hposc := @cleanInfluenceArray_nonneg influence yearsContributed hpos
    have hrw : influenceByYearSeq influence yearsContributed =
        (List.range (tailYearsList yearsContributed
            (cleanInfluenceArray influence yearsContributed)).length).map
          (influenceAt (cleanInfluenceArray influence yearsContributed)
            (tailYearsList yearsContributed
              (cleanInfluenceArray influence yearsContributed))) := rfl
    rw [hrw, List.chain'_map]
    cases hn : (tailYearsList yearsContributed
        (cleanInfluenceArray influence yearsContributed)).length with
    | zero => simp
    | succ m =>
      rw [List.chain'_range_succ]
      intro m2 hm2
      exact influenceAt_le_succ hposc (by omega)
  · intro vals tailMin tailMax hdeg
    have hlin : tailRadii vals tailMin tailMax =
        (List.range vals.length).map (fun (i : ℕ) =>
          tailMin + ((i : ℚ) / ((vals.length : ℚ) - 1)) * (tailMax - tailMin)) := by
      simp only [tailRadii]
      rw [if_neg (fun hne => hne hdeg)]
    refine ⟨hlin, fun hmm => ?_⟩
    rw [hlin, List.chain'_map]
    cases hn : vals.length with
    | zero => simp
    | succ m =>
      rw [List.chain'_range_succ]
      intro m2 hm2
      have hd : (0 : ℚ) < ((m + 1 : ℕ) : ℚ) - 1 := by
        push_cast
        have : (1 : ℚ) ≤ (m : ℚ) := by exact_mod_cast Nat.one_le_iff_ne_zero.mpr (by omega)
        linarith
      have hnum : ((m2 : ℚ)) / (((m + 1 : ℕ) : ℚ) - 1) ≤
          (((m2 + 1 : ℕ) : ℚ)) / (((m + 1 : ℕ) : ℚ) - 1) := by
        rw [div_le_div_iff_of_pos_right hd]
        push_cast
        linarith
      have := mul_le_mul_of_nonneg_right hnum (by linarith : (0 : ℚ) ≤ tailMax - tailMin)
      linarith

/-- Witness for C5 at the concrete scenario series. -/
theorem c5_witness :
    (∀ e ∈ [(⟨some 2005, 5⟩ : InfluenceEvent)], 0 ≤ e.score) ∧
    (influenceByYearSeq [⟨some 2005, 5⟩] [2000, 2005, 2010]).Chain' (· ≤ ·) :=
  ⟨by intro e he; rw [List.mem_singleton] at he; subst he; norm_num,
   (c5_cumulative_monotone [⟨some 2005, 5⟩] [2000, 2005, 2010]
     (by intro e he; rw [List.mem_singleton] at he; subst he; norm_num)).1⟩

/-- A computed screen coordinate of the ribbon outline: `none` models the JS
non-finite value `NaN`, the value the guards of Overview.jsx 1284-1318 test
with `isNaN`. -/
def jsIsNaN (x : Option ℚ) : Bool := x.isNone

/-- A ribbon outline control point `[x, y]`. -/
structure TailPoint where
  x : Option ℚ
  y : Option ℚ
deriving DecidableEq

/-- Whether both coordinates of a point are finite. -/
def pointFinite (p : TailPoint) : Bool := !(jsIsNaN p.x) && !(jsIsNaN p.y)

/-- Midpoint of two points (the `midX`/`midY` of the quadratic segments). -/
def midPoint (p q : TailPoint) : TailPoint :=
  ⟨match p.x, q.x with
    | some a, some b => some ((a + b) / 2)
    | _, _ => none,
   match p.y, q.y with
    | some a, some b => some ((a + b) / 2)
    | _, _ => none⟩

/-- One emitted SVG path command of the ribbon outline. -/
inductive PathCmd
  | move (p : TailPoint)
  | quad (ctrl mid : TailPoint)
  | line (p : TailPoint)
deriving DecidableEq

/-- The outer-curve loop (Overview.jsx 1286-1294): for each consecutive pair
of points with all four coordinates finite, a quadratic segment through their
midpoint; a pair touching a non-finite coordinate is skipped while the loop
continues over the remaining pairs. -/
def outerCmds : List TailPoint → List PathCmd
  | p :: q :: rest =>
    (if pointFinite p && pointFinite q then [PathCmd.quad p (midPoint p q)] else []) ++
      outerCmds (q :: rest)
  | _ => []

/-- The quadratic segments of the inner-curve loop (Overview.jsx 1309-1317),
processed here on the reversed point list, matching the loop's descending
index order. -/
def innerQuads : List TailPoint → List PathCmd
  | nxt :: curr :: rest =>
    (if pointFinite curr && pointFinite nxt then [PathCmd.quad nxt (midPoint curr nxt)]
     else []) ++ innerQuads (curr :: rest)
  | _ => []

/-- The inner-curve commands (Overview.jsx 1303-1318): an `L` to the last
inner point when that point is finite, then the reversed quadratic segments. -/
def innerCmds (pts : List TailPoint) : List PathCmd :=
  match pts.reverse with
  | [] => []
  | lastP :: rest =>
    (if pointFinite lastP then [PathCmd.line lastP] else []) ++ innerQuads (lastP :: rest)

/-- The full ribbon path build (Overview.jsx 1284-1324): nothing is emitted
unless the first outer point exists and is finite; otherwise an `M` to the
first point, the outer segments, an `L` to the last outer point when the
outer list has more than one point and that point is finite, and the inner
curve commands. -/
def tailPath (pointsOuter pointsInner : List TailPoint) : List PathCmd :=
  match pointsOuter with
  | [] => []
  | p0 :: rest =>
    if pointFinite p0 then
      PathCmd.move p0 ::
        (outerCmds (p0 :: rest) ++
          (if decide (0 < rest.length) && pointFinite ((p0 :: rest).getLastD p0) then
            [PathCmd.line ((p0 :: rest).getLastD p0)]
          else []) ++
          innerCmds pointsInner)
    else []

/-- Whether every point of a command is finite. -/
def cmdFinite : PathCmd → Bool
  | PathCmd.move p => pointFinite p
  | PathCmd.quad c m => pointFinite c && pointFinite m
  | PathCmd.line p => pointFinite p

/-- Contributed release years of an artist's works (Overview.jsx 1120-1127):
dangling work ids are dropped (`art ? Number(art.release_date) : null`
followed by `filter(y => y !== null)`); a resolved work record keeps its
optional year. -/
def yearsContributedOf (contributedTo : Option (List String))
    (find : String → Option MusicNode) : List (Option ℤ) :=
  (contributedTo.getD []).filterMap fun i => (find i).map fun art => art.release_date

/-- The guard of the selected-artist ribbon (Overview.jsx 1119 and 1128):
drawn only for the selected artist, only when the artist has more than one
contributed work and more than one contributed-year entry. -/
def artistTailRendered (selectedArtistId nodeId : String)
    (contributedTo : Option (List String)) (find : String → Option MusicNode) : Bool :=
  (selectedArtistId == nodeId) &&
    (match contributedTo with
     | some l => decide (1 < l.length)
     | none => false) &&
    decide (1 < (yearsContributedOf contributedTo find).length)

/-- A finite-by-finite midpoint is finite. -/
theorem pointFinite_midPoint {p q : TailPoint} (hp : pointFinite p = true)
    (hq : pointFinite q = true) : pointFinite (midPoint p q) = true := by
  obtain ⟨px, py⟩ := p
  obtain ⟨qx, qy⟩ := q
  cases px <;> cases py <;> cases qx <;> cases qy <;>
    simp_all [midPoint, pointFinite, jsIsNaN]

/-- Every command emitted by the outer loop has only finite coordinates. -/
theorem outerCmds_finite : ∀ (pts : List TailPoint), ∀ c ∈ outerCmds pts,
    cmdFinite c = true := by
  intro pts
  induction pts with
  | nil => intro c hc; exact absurd hc (by simp [outerCmds])
  | cons p rest ih =>
    intro c hc
    cases rest with
    | nil => exact absurd hc (by simp [outerCmds])
    | cons q rest2 =>
      rw [outerCmds, List.mem_append] at hc
      rcases hc with hc | hc
      · by_cases hf : (pointFinite p && pointFinite q) = true
        · rw [if_pos hf] at hc
          rw [List.mem_singleton] at hc
          subst hc
          rw [Bool.and_eq_true] at hf
          show (pointFinite p && pointFinite (midPoint p q)) = true
          rw [hf.1, pointFinite_midPoint hf.1 hf.2]
          rfl
        · rw [if_neg hf] at hc
          exact absurd hc (by simp)
      · exact ih c hc

/-- Every command emitted by the inner quadratic loop is finite. -/
theorem innerQuads_finite : ∀ (pts : List TailPoint), ∀ c ∈ innerQuads pts,
    cmdFinite c = true := by
  intro pts
  induction pts with
  | nil => intro c hc; exact absurd hc (by simp [innerQuads])
  | cons p rest ih =>
    intro c hc
    cases rest with
    | nil => exact absurd hc (by simp [innerQuads])
    | cons q rest2 =>
      rw [innerQuads, List.mem_append] at hc
      rcases hc with hc | hc
      · by_cases hf : (pointFinite q && pointFinite p) = true
        · rw [if_pos hf] at hc
          rw [List.mem_singleton] at hc
          subst hc
          rw [Bool.and_eq_true] at hf
          show (pointFinite p && pointFinite (midPoint q p)) = true
          rw [hf.2, pointFinite_midPoint hf.1 hf.2]
          rfl
        · rw [if_neg hf] at hc
          exact absurd hc (by simp)
      · exact ih c hc

/-- Every command emitted for the inner curve is finite. -/
theorem innerCmds_finite (pts : List TailPoint) : ∀ c ∈ innerCmds pts,
    cmdFinite c = true := by
  intro c hc
  rw [innerCmds] at hc
  cases hr : pts.reverse with
  | nil => rw [hr] at hc; exact absurd hc (by simp)
  | cons lastP rest =>
    rw [hr, List.mem_append] at hc
    rcases hc with hc | hc
    · by_cases hf : pointFinite lastP = true
      · rw [if_pos hf] at hc
        rw [List.mem_singleton] at hc
        subst hc
        exact hf
      · rw [if_neg hf] at hc
        exact absurd hc (by simp)
    · exact innerQuads_finite (lastP :: rest) c hc

/-- C9: a ribbon with fewer than two contributed-year entries is skipped
rather than drawn; every path command actually emitted has only finite
coordinates (a command that would touch a non-finite coordinate is the one
skipped); and skipping is local — a non-finite point removes only its own
segment while the loop continues over the remaining pairs. -/
theorem c9_degenerate_guards :
    (∀ (sel nodeId : String) (contributedTo : Option (List String))
        (find : String → Option MusicNode),
      (yearsContributedOf contributedTo find).length ≤ 1 →
      artistTailRendered sel nodeId contributedTo find = false) ∧
    (∀ pointsOuter pointsInner : List TailPoint,
      ∀ c ∈ tailPath pointsOuter pointsInner, cmdFinite c = true) ∧
    (∀ (p q : TailPoint) (rest : List TailPoint), pointFinite p = false →
      outerCmds (p :: q :: rest) = outerCmds (q :: rest)) := by
  refine ⟨?_, ?_, ?_⟩
  · intro sel nodeId contributedTo find hlen
    unfold artistTailRendered
    rw [decide_eq_false (by omega), Bool.and_false]
  · intro pointsOuter pointsInner c hc
    cases pointsOuter with
    | nil => exact absurd hc (by simp [tailPath])
    | cons p0 rest =>
      simp only [tailPath] at hc
      by_cases hf : pointFinite p0 = true
      · rw [if_pos hf] at hc
        rw [List.mem_cons] at hc
        rcases hc with hc | hc
        · subst hc
          exact hf
        · rw [List.mem_append, List.mem_append] at hc
          rcases hc with (hc | hc) | hc
          · exact outerCmds_finite (p0 :: rest) c hc
          · by_cases hg : (decide (0 < rest.length) &&
                pointFinite ((p0 :: rest).getLastD p0)) = true
            · rw [if_pos hg] at hc
              rw [List.mem_singleton] at hc
              subst hc
              rw [Bool.and_eq_true] at hg
              exact hg.2
            · rw [if_neg hg] at hc
              exact absurd hc (by simp)
          · exact innerCmds_finite pointsInner c hc
      · rw [if_neg hf] at hc
        exact absurd hc (by simp)
  · intro p q rest hp
    rw [outerCmds, hp]
    rfl

/-- Witness for C9's degenerate guard at a contributor with two dangling work
ids, hence an empty contributed-year list. -/
theorem c9_witness :
    (yearsContributedOf (some ["w1", "w2"]) (fun _ => none)).length ≤ 1 ∧
    artistTailRendered "a1" "a1" (some ["w1", "w2"]) (fun _ => none) = false :=
  ⟨by decide, c9_degenerate_guards.1 "a1" "a1" (some ["w1", "w2"])
    (fun _ => none) (by decide)⟩
